import Mathlib

/-!
# IffUtils: the record declarations of `iffutils.h`

The repository is one C header declaring six structs (`IFFHeader`, `ChunkDesc`,
`BMHD`, `CRange`, `Point2D`, `CamgChunk`).  The first part of this file embeds
those declarations as data (field names and C types, in declaration order) and
gives them the meaning a C compiler gives them: a width, an alignment, a
signedness and a value range per type, all relative to the C data model the
header is compiled for, which the header itself does not fix.

The second part models the byte codec the specification describes (big-endian,
packed, field by field).  No such function exists in the repository; those
definitions are marked as modelled from the specification.
-/

namespace IffUtils

/-! ## The C types and declarations of iffutils.h -/

/-- The C types that occur in `iffutils.h`. `charArray n` is `char name[n]`. -/
inductive CType where
  | char
  | short
  | unsignedShort
  | unsignedInt
  | unsignedLong
  | charArray (n : Nat)
  deriving DecidableEq, Repr

/-- One member of a struct: its name and its declared type. -/
structure Field where
  name : String
  type : CType
  deriving DecidableEq, Repr

/-- The struct `IFFHeader`: `char type[4]; unsigned int size; char subtype[4];` -/
def IFFHeader : List Field :=
  [⟨"type", .charArray 4⟩, ⟨"size", .unsignedInt⟩, ⟨"subtype", .charArray 4⟩]

/-- The struct `ChunkDesc`: `char chunkType[4]; unsigned int chunkSize;` -/
def ChunkDesc : List Field :=
  [⟨"chunkType", .charArray 4⟩, ⟨"chunkSize", .unsignedInt⟩]

/-- The struct `BMHD`:
`unsigned short w, h; short x, y; char nPlanes; char masking; char compression;
char padl; unsigned short transparentColor; char xAspect, yAspect; short pageW, pageH;` -/
def BMHD : List Field :=
  [⟨"w", .unsignedShort⟩, ⟨"h", .unsignedShort⟩,
   ⟨"x", .short⟩, ⟨"y", .short⟩,
   ⟨"nPlanes", .char⟩,
   ⟨"masking", .char⟩,
   ⟨"compression", .char⟩,
   ⟨"padl", .char⟩,
   ⟨"transparentColor", .unsignedShort⟩,
   ⟨"xAspect", .char⟩, ⟨"yAspect", .char⟩,
   ⟨"pageW", .short⟩, ⟨"pageH", .short⟩]

/-- The struct `CRange`: `short pad1; short rate; short flags; char low, high;` -/
def CRange : List Field :=
  [⟨"pad1", .short⟩, ⟨"rate", .short⟩, ⟨"flags", .short⟩,
   ⟨"low", .char⟩, ⟨"high", .char⟩]

/-- The struct `Point2D`: `short x, y;` -/
def Point2D : List Field :=
  [⟨"x", .short⟩, ⟨"y", .short⟩]

/-- The struct `CamgChunk`: `unsigned long viewModes;` -/
def CamgChunk : List Field :=
  [⟨"viewModes", .unsignedLong⟩]

/-- The six structs of the header, in declaration order. -/
def allStructs : List (List Field) :=
  [IFFHeader, ChunkDesc, BMHD, CRange, Point2D, CamgChunk]

/-! ## The compilation target

The header uses the built-in types `char`, `short`, `int` and `long`, whose
width and signedness are fixed by the target ABI and not by the header.  The
target is therefore a parameter of everything below. -/

/-- The three C data models in use: they agree on `short` (2 bytes) and `int`
(4 bytes) and differ in `long`: 4 bytes under ILP32 and LLP64, 8 under LP64. -/
inductive DataModel where
  | ILP32
  | LLP64
  | LP64
  deriving DecidableEq, Repr

/-- A compilation target: its data model and whether plain `char` is signed. -/
structure Target where
  dataModel : DataModel
  charSigned : Bool
  deriving DecidableEq, Repr

/-- Width of `long` in bytes. -/
def DataModel.longBytes : DataModel → Nat
  | .ILP32 => 4
  | .LLP64 => 4
  | .LP64 => 8

/-- The 64-bit macOS and iOS targets (x86_64, arm64) of the Xcode/SwiftPM
package the header belongs to: LP64 with a signed plain `char`. -/
def appleLP64 : Target := ⟨.LP64, true⟩

/-- A 32-bit target with a signed plain `char` (for instance i386). -/
def ilp32 : Target := ⟨.ILP32, true⟩

/-- A 64-bit target with an unsigned plain `char` (for instance Linux on arm64). -/
def linuxArm64 : Target := ⟨.LP64, false⟩

/-- A 32-bit target with an unsigned plain `char` (for instance Linux on 32-bit ARM). -/
def linuxArm32 : Target := ⟨.ILP32, false⟩

/-- The 64-bit Windows target: LLP64 with a signed plain `char`. -/
def win64 : Target := ⟨.LLP64, true⟩

/-- The result of `sizeof` on a type, in bytes. -/
def CType.size (t : Target) : CType → Nat
  | .char => 1
  | .short => 2
  | .unsignedShort => 2
  | .unsignedInt => 4
  | .unsignedLong => t.dataModel.longBytes
  | .charArray n => n

/-- Natural alignment: a scalar is aligned to its own width, an array of `char`
to 1. -/
def CType.align (t : Target) : CType → Nat
  | .charArray _ => 1
  | ty => ty.size t

/-- Width in bytes of one scalar object of the type (for an array, of one element). -/
def CType.scalarBytes (t : Target) : CType → Nat
  | .charArray _ => 1
  | ty => ty.size t

/-- Whether the (element) type is signed. -/
def CType.isSigned (t : Target) : CType → Bool
  | .char => t.charSigned
  | .short => true
  | .unsignedShort => false
  | .unsignedInt => false
  | .unsignedLong => false
  | .charArray _ => t.charSigned

/-- Smallest value of the (element) type, two's complement. -/
def CType.minValue (t : Target) (ty : CType) : Int :=
  if ty.isSigned t then -((2 : Int) ^ (8 * ty.scalarBytes t - 1)) else 0

/-- Largest value of the (element) type. -/
def CType.maxValue (t : Target) (ty : CType) : Int :=
  if ty.isSigned t then (2 : Int) ^ (8 * ty.scalarBytes t - 1) - 1
  else (2 : Int) ^ (8 * ty.scalarBytes t) - 1

/-- A byte. -/
abbrev Byte := Fin 256

/-- The number a one-byte object of type `char` holds when its storage is the
byte `b`: `b` itself when `char` is unsigned, the two's complement reading when
it is signed. -/
def charValue (t : Target) (b : Byte) : Int :=
  if t.charSigned then (if b.val < 128 then (b.val : Int) else (b.val : Int) - 256)
  else (b.val : Int)

/-- The declared type of the member called `name`, if the struct has one. -/
def fieldType (s : List Field) (name : String) : Option CType :=
  (s.find? (fun f => f.name == name)).map (fun f => f.type)

/-! ## Layout -/

/-- Offsets when each field starts where the previous one ends (no padding),
starting at `off`. -/
def packedOffsetsFrom (t : Target) (off : Nat) : List Field → List Nat
  | [] => []
  | f :: fs => off :: packedOffsetsFrom t (off + f.type.size t) fs

/-- Packed offsets of a struct's fields. -/
def packedOffsets (t : Target) (s : List Field) : List Nat :=
  packedOffsetsFrom t 0 s

/-- The sum of the declared field widths. -/
def packedSize (t : Target) (s : List Field) : Nat :=
  (s.map (fun f => f.type.size t)).sum

/-- The next multiple of `a` at or after `n`. -/
def alignUp (n a : Nat) : Nat :=
  if a = 0 then n else (n + a - 1) / a * a

/-- Offsets under natural alignment: each field is placed at the next multiple
of its alignment at or after the end of the previous field. -/
def nativeOffsetsFrom (t : Target) (off : Nat) : List Field → List Nat
  | [] => []
  | f :: fs =>
    alignUp off (f.type.align t) ::
      nativeOffsetsFrom t (alignUp off (f.type.align t) + f.type.size t) fs

/-- End of the last field under natural alignment. -/
def nativeEndFrom (t : Target) (off : Nat) : List Field → Nat
  | [] => off
  | f :: fs => nativeEndFrom t (alignUp off (f.type.align t) + f.type.size t) fs

/-- Natural-alignment offsets of a struct's fields (`offsetof`). -/
def nativeOffsets (t : Target) (s : List Field) : List Nat :=
  nativeOffsetsFrom t 0 s

/-- Alignment of a struct: the largest alignment of a member. -/
def structAlign (t : Target) (s : List Field) : Nat :=
  (s.map (fun f => f.type.align t)).foldl max 1

/-- Size of a struct under natural alignment (`sizeof`): the end of the last
field rounded up to the struct's alignment. -/
def nativeSize (t : Target) (s : List Field) : Nat :=
  alignUp (nativeEndFrom t 0 s) (structAlign t s)

/-- The storage of every member when `bs` is the storage of the struct: for each
field, in declaration order, its declared type and the bytes from its offset up
to its width. -/
def memberBytes (t : Target) (s : List Field) (bs : List Byte) : List (CType × List Byte) :=
  (s.zip (nativeOffsets t s)).map (fun p => (p.1.type, (bs.drop p.2).take (p.1.type.size t)))

/-- The one-byte members of the header: `nPlanes`, `masking`, `compression`,
`padl`, `xAspect`, `yAspect` of `BMHD` and `low`, `high` of `CRange`. -/
def singleByteFields : List (List Field × String) :=
  [(BMHD, "nPlanes"), (BMHD, "masking"), (BMHD, "compression"), (BMHD, "padl"),
   (BMHD, "xAspect"), (BMHD, "yAspect"), (CRange, "low"), (CRange, "high")]

/-! ## The byte codec of the specification

The repository holds no encoder or decoder.  The definitions of this section
follow the specification: its record table (field order, width, signedness),
its primitive encoding conventions (big-endian, two's complement, tags padded
with spaces), its error kinds and the per-record rules of its component design. -/

namespace Wire

/-- Modelled from the spec: the decoder's error kinds (error taxonomy);
the repository declares no error type. -/
inductive DecodeError where
  | ShortInput
  | InvalidTag
  deriving DecidableEq, Repr

deriving instance DecidableEq for Except

/-- Modelled from the spec: the field types of the record table (`u8`, `u16`,
`i16`, `u32` and the four-byte tag); the repository has only the C types. -/
inductive WireType where
  | u8
  | u16
  | i16
  | u32
  | tag4
  deriving DecidableEq, Repr

/-- Modelled from the spec: the width in bytes of a wire type (1, 2, 2, 4, 4);
the repository has no such table. -/
def WireType.width : WireType → Nat
  | .u8 => 1
  | .u16 => 2
  | .i16 => 2
  | .u32 => 4
  | .tag4 => 4

/-- Modelled from the spec: the six record kinds of the record table, named
after the structs of `iffutils.h` they describe. -/
inductive RecordKind where
  | IFFHeader
  | ChunkDesc
  | BMHD
  | CRange
  | Point2D
  | CamgChunk
  deriving DecidableEq, Repr

/-- Modelled from the spec: the record table, the fields of each record kind in
wire order with their wire type (field names as the spec gives them). -/
def RecordKind.wireFields : RecordKind → List (String × WireType)
  | .IFFHeader => [("tag", .tag4), ("size", .u32), ("subtag", .tag4)]
  | .ChunkDesc => [("tag", .tag4), ("size", .u32)]
  | .BMHD =>
    [("width", .u16), ("height", .u16), ("x", .i16), ("y", .i16),
     ("planes", .u8), ("masking", .u8), ("compression", .u8), ("pad", .u8),
     ("transparentColor", .u16), ("xAspect", .u8), ("yAspect", .u8),
     ("pageWidth", .i16), ("pageHeight", .i16)]
  | .CRange => [("pad1", .i16), ("rate", .i16), ("flags", .i16), ("low", .u8), ("high", .u8)]
  | .Point2D => [("x", .i16), ("y", .i16)]
  | .CamgChunk => [("viewModes", .u32)]

/-- Modelled from the spec: the on-wire size of a record kind, the sum of its
field widths. -/
def RecordKind.width (k : RecordKind) : Nat :=
  (k.wireFields.map (fun f => f.2.width)).sum

/-- The struct of `iffutils.h` a record kind describes. -/
def RecordKind.decl : RecordKind → List Field
  | .IFFHeader => IffUtils.IFFHeader
  | .ChunkDesc => IffUtils.ChunkDesc
  | .BMHD => IffUtils.BMHD
  | .CRange => IffUtils.CRange
  | .Point2D => IffUtils.Point2D
  | .CamgChunk => IffUtils.CamgChunk

/-! ### Primitive encoding conventions -/

/-- Modelled from the spec: the low eight bits of a number as one byte. -/
def byteOf (n : Nat) : Byte := ⟨n % 256, Nat.mod_lt _ (by decide)⟩

/-- Modelled from the spec: `u8` encodes as a single byte. -/
def encU8 (v : Nat) : List Byte := [byteOf v]

/-- Modelled from the spec: `u16` encodes as two bytes, most significant first. -/
def encU16 (v : Nat) : List Byte := [byteOf (v / 256), byteOf v]

/-- Modelled from the spec: `i16` encodes as two bytes, most significant first,
in two's complement. -/
def encI16 (v : Int) : List Byte := encU16 (v % 65536).toNat

/-- Modelled from the spec: `u32` encodes as four bytes, most significant first. -/
def encU32 (v : Nat) : List Byte :=
  [byteOf (v / 16777216), byteOf (v / 65536), byteOf (v / 256), byteOf v]

/-- Modelled from the spec: a tag is stored as supplied, left-aligned and padded
on the right with spaces (0x20) to width 4. -/
def encTag (t : List Byte) : List Byte :=
  t.take 4 ++ List.replicate (4 - t.length) (32 : Byte)

/-- Modelled from the spec: the value of the byte at offset `i` of a buffer
(0 past its end; the decoders check the length first). -/
def byteAt (bs : List Byte) (i : Nat) : Nat := (bs.getD i 0).val

/-- Modelled from the spec: reading a `u16` at offset `i`, most significant byte first. -/
def be16 (bs : List Byte) (i : Nat) : Nat :=
  byteAt bs i * 256 + byteAt bs (i + 1)

/-- Modelled from the spec: reading a `u32` at offset `i`, most significant byte first. -/
def be32 (bs : List Byte) (i : Nat) : Nat :=
  byteAt bs i * 16777216 + byteAt bs (i + 1) * 65536 + byteAt bs (i + 2) * 256
    + byteAt bs (i + 3)

/-- Modelled from the spec: the two's complement reading of a 16-bit pattern. -/
def toSigned16 (n : Nat) : Int :=
  if n < 32768 then (n : Int) else (n : Int) - 65536

/-- Modelled from the spec: reading an `i16` at offset `i`. -/
def beI16 (bs : List Byte) (i : Nat) : Int := toSigned16 (be16 bs i)

/-- Modelled from the spec: a tag passes validation when every byte is printable
ASCII (0x20 to 0x7E). -/
def tagValid (t : List Byte) : Bool :=
  t.all (fun b => decide (32 ≤ b.val) && decide (b.val ≤ 126))

/-! ### The records -/

/-- Modelled from the spec: the ContainerHeader record (`tag[4], size:u32,
subtag[4]`), the wire form of `IFFHeader` (`type`, `size`, `subtype`). -/
structure ContainerHeader where
  tag : List Byte
  size : Nat
  subtag : List Byte
  deriving DecidableEq, Repr

/-- Modelled from the spec: the ChunkDescriptor record (`tag[4], size:u32`), the
wire form of `ChunkDesc` (`chunkType`, `chunkSize`). -/
structure ChunkDescriptor where
  tag : List Byte
  size : Nat
  deriving DecidableEq, Repr

/-- Modelled from the spec: the BitmapHeader record, the wire form of `BMHD`
(`w, h, x, y, nPlanes, masking, compression, padl, transparentColor, xAspect,
yAspect, pageW, pageH`). -/
structure BitmapHeader where
  width : Nat
  height : Nat
  x : Int
  y : Int
  planes : Nat
  masking : Nat
  compression : Nat
  pad : Nat
  transparentColor : Nat
  xAspect : Nat
  yAspect : Nat
  pageWidth : Int
  pageHeight : Int
  deriving DecidableEq, Repr

/-- Modelled from the spec: the ColorCycleRange record (`pad1:i16, rate:i16,
flags:i16, low:u8, high:u8`), the wire form of `CRange`. -/
structure ColorCycleRange where
  pad1 : Int
  rate : Int
  flags : Int
  low : Nat
  high : Nat
  deriving DecidableEq, Repr

/-- Modelled from the spec: the Point2D record (`x:i16, y:i16`). -/
structure Point where
  x : Int
  y : Int
  deriving DecidableEq, Repr

/-- Modelled from the spec: the CamgChunk record (`viewModes:u32`). -/
structure DisplayMode where
  viewModes : Nat
  deriving DecidableEq, Repr

/-! ### Encoders -/

/-- Modelled from the spec: `encode(ContainerHeader) -> bytes`. -/
def ContainerHeader.encode (h : ContainerHeader) : List Byte :=
  encTag h.tag ++ encU32 h.size ++ encTag h.subtag

/-- Modelled from the spec: `encode(ChunkDescriptor) -> bytes`. -/
def ChunkDescriptor.encode (c : ChunkDescriptor) : List Byte :=
  encTag c.tag ++ encU32 c.size

/-- Modelled from the spec: `encode(BitmapHeader) -> bytes`, every field of the
record written in table order with the value the record holds.  Reserved parts
(the `pad` byte here, `pad1` and the upper `flags` bits of the color cycle
range) are all treated alike: that they are "written as zero" is the
producer's duty when it fills the record; the codec writes what it is given,
as the round-trip property and "the core itself must preserve unknown values"
ask. -/
def BitmapHeader.encode (b : BitmapHeader) : List Byte :=
  encU16 b.width ++ encU16 b.height ++ encI16 b.x ++ encI16 b.y
    ++ encU8 b.planes ++ encU8 b.masking ++ encU8 b.compression ++ encU8 b.pad
    ++ encU16 b.transparentColor ++ encU8 b.xAspect ++ encU8 b.yAspect
    ++ encI16 b.pageWidth ++ encI16 b.pageHeight

/-- Modelled from the spec: `encode` of a color cycle range, every field of the
record written in table order with the value the record holds; the reserved
`pad1` and the reserved `flags` bits are written as the record has them, like
the `pad` byte of the bitmap header. -/
def ColorCycleRange.encode (c : ColorCycleRange) : List Byte :=
  encI16 c.pad1 ++ encI16 c.rate ++ encI16 c.flags ++ encU8 c.low ++ encU8 c.high

/-- Modelled from the spec: `encode` of a Point2D body. -/
def Point.encode (p : Point) : List Byte :=
  encI16 p.x ++ encI16 p.y

/-- Modelled from the spec: `encode` of a display-mode body. -/
def DisplayMode.encode (d : DisplayMode) : List Byte :=
  encU32 d.viewModes

/-! ### Decoders -/

/-- Modelled from the spec: `decode(bytes) -> (ContainerHeader, rest)`.  Fails
with `ShortInput` when fewer than 12 bytes are supplied; fails with `InvalidTag`
only when the caller asks for tag validation and a tag byte is not printable. -/
def ContainerHeader.decode (validateTags : Bool) (bs : List Byte) :
    Except DecodeError (ContainerHeader × List Byte) :=
  if bs.length < 12 then .error .ShortInput
  else if validateTags && !(tagValid (bs.take 4) && tagValid ((bs.drop 8).take 4)) then
    .error .InvalidTag
  else
    .ok (⟨bs.take 4, be32 bs 4, (bs.drop 8).take 4⟩, bs.drop 12)

/-- Modelled from the spec: `decode(bytes) -> (ChunkDescriptor, rest)`. -/
def ChunkDescriptor.decode (validateTags : Bool) (bs : List Byte) :
    Except DecodeError (ChunkDescriptor × List Byte) :=
  if bs.length < 8 then .error .ShortInput
  else if validateTags && !(tagValid (bs.take 4)) then .error .InvalidTag
  else .ok (⟨bs.take 4, be32 bs 4⟩, bs.drop 8)

/-- Modelled from the spec: `decode(bytes) -> BitmapHeader`; every field value
is surfaced verbatim. -/
def BitmapHeader.decode (bs : List Byte) : Except DecodeError BitmapHeader :=
  if bs.length < 20 then .error .ShortInput
  else
    .ok {
      width := be16 bs 0
      height := be16 bs 2
      x := beI16 bs 4
      y := beI16 bs 6
      planes := byteAt bs 8
      masking := byteAt bs 9
      compression := byteAt bs 10
      pad := byteAt bs 11
      transparentColor := be16 bs 12
      xAspect := byteAt bs 14
      yAspect := byteAt bs 15
      pageWidth := beI16 bs 16
      pageHeight := beI16 bs 18 }

/-- Modelled from the spec: `decode` of a color cycle range body (8 bytes). -/
def ColorCycleRange.decode (bs : List Byte) : Except DecodeError ColorCycleRange :=
  if bs.length < 8 then .error .ShortInput
  else
    .ok {
      pad1 := beI16 bs 0
      rate := beI16 bs 2
      flags := beI16 bs 4
      low := byteAt bs 6
      high := byteAt bs 7 }

/-- Modelled from the spec: `decode` of a Point2D body (4 bytes). -/
def Point.decode (bs : List Byte) : Except DecodeError Point :=
  if bs.length < 4 then .error .ShortInput
  else .ok ⟨beI16 bs 0, beI16 bs 2⟩

/-- Modelled from the spec: `decode` of a display-mode body (4 bytes). -/
def DisplayMode.decode (bs : List Byte) : Except DecodeError DisplayMode :=
  if bs.length < 4 then .error .ShortInput
  else .ok ⟨be32 bs 0⟩

/-! ### All record kinds at once -/

/-- Modelled from the spec: a value of any of the six record kinds. -/
inductive Record where
  | IFFHeader (h : ContainerHeader)
  | ChunkDesc (c : ChunkDescriptor)
  | BMHD (b : BitmapHeader)
  | CRange (c : ColorCycleRange)
  | Point2D (p : Point)
  | CamgChunk (d : DisplayMode)
  deriving DecidableEq, Repr

/-- Modelled from the spec: `encode` of a record of any kind. -/
def Record.encode : Record → List Byte
  | .IFFHeader h => h.encode
  | .ChunkDesc c => c.encode
  | .BMHD b => b.encode
  | .CRange c => c.encode
  | .Point2D p => p.encode
  | .CamgChunk d => d.encode

/-- Modelled from the spec: `decode` of a record of the given kind (the record
alone, without the remaining bytes). -/
def decode (k : RecordKind) (validateTags : Bool) (bs : List Byte) :
    Except DecodeError Record :=
  match k with
  | .IFFHeader => (ContainerHeader.decode validateTags bs).map (fun r => .IFFHeader r.1)
  | .ChunkDesc => (ChunkDescriptor.decode validateTags bs).map (fun r => .ChunkDesc r.1)
  | .BMHD => (BitmapHeader.decode bs).map .BMHD
  | .CRange => (ColorCycleRange.decode bs).map .CRange
  | .Point2D => (Point.decode bs).map .Point2D
  | .CamgChunk => (DisplayMode.decode bs).map .CamgChunk

/-! ### Field ranges -/

/-- Modelled from the spec: a tag value is exactly four bytes. -/
def tagInRange (t : List Byte) : Prop := t.length = 4

/-- Modelled from the spec: the range of `u8`. -/
def u8InRange (v : Nat) : Prop := v < 256

/-- Modelled from the spec: the range of `u16`. -/
def u16InRange (v : Nat) : Prop := v < 65536

/-- Modelled from the spec: the range of `i16`. -/
def i16InRange (v : Int) : Prop := -32768 ≤ v ∧ v < 32768

/-- Modelled from the spec: the range of `u32`. -/
def u32InRange (v : Nat) : Prop := v < 4294967296

/-- Modelled from the spec: every field of the record is in the range of the
type the record table gives it. -/
def Record.InRange : Record → Prop
  | .IFFHeader h => tagInRange h.tag ∧ u32InRange h.size ∧ tagInRange h.subtag
  | .ChunkDesc c => tagInRange c.tag ∧ u32InRange c.size
  | .BMHD b =>
    u16InRange b.width ∧ u16InRange b.height ∧ i16InRange b.x ∧ i16InRange b.y
      ∧ u8InRange b.planes ∧ u8InRange b.masking ∧ u8InRange b.compression
      ∧ u8InRange b.pad ∧ u16InRange b.transparentColor ∧ u8InRange b.xAspect
      ∧ u8InRange b.yAspect ∧ i16InRange b.pageWidth ∧ i16InRange b.pageHeight
  | .CRange c =>
    i16InRange c.pad1 ∧ i16InRange c.rate ∧ i16InRange c.flags ∧ u8InRange c.low
      ∧ u8InRange c.high
  | .Point2D p => i16InRange p.x ∧ i16InRange p.y
  | .CamgChunk d => u32InRange d.viewModes

/-- Modelled from the spec: the bytes of an ASCII tag such as "FORM". -/
def tagOfString (s : String) : List Byte := s.toList.map (fun c => byteOf c.toNat)

/-- Modelled from the spec: the bytes of scenario 1,
`46 4F 52 4D 00 00 00 2A 49 4C 42 4D`. -/
def formIlbmBytes : List Byte :=
  [0x46, 0x4F, 0x52, 0x4D, 0x00, 0x00, 0x00, 0x2A, 0x49, 0x4C, 0x42, 0x4D]

/-- Being in range is decidable. -/
instance Record.decidableInRange (r : Record) : Decidable r.InRange := by
  cases r <;>
    unfold Record.InRange tagInRange u8InRange u16InRange i16InRange u32InRange <;>
    infer_instance

end Wire

/-! ## The declarations: widths, offsets, ranges -/

/-- The layout rule does insert padding where alignment asks for it: in
`struct { char c; unsigned int n; }` the second member starts at offset 4 and
the struct is 8 bytes, not 5. -/
theorem nativeLayout_pads (t : Target) :
    nativeOffsets t [⟨"c", .char⟩, ⟨"n", .unsignedInt⟩] = [0, 4]
      ∧ nativeSize t [⟨"c", .char⟩, ⟨"n", .unsignedInt⟩] = 8
      ∧ packedSize t [⟨"c", .char⟩, ⟨"n", .unsignedInt⟩] = 5 := by
  rcases t with ⟨dm, sg⟩
  cases dm <;> cases sg <;> decide

/-- C1, as the header has it: on every target the declared field widths of
`IFFHeader`, `ChunkDesc`, `BMHD`, `CRange` and `Point2D` sum to 12, 8, 20, 8
and 4 bytes, and those of `CamgChunk` sum to the width of the target's `long`,
which is 4 bytes under ILP32 and LLP64. -/
theorem declared_width_sums (t : Target) :
    allStructs.map (packedSize t) = [12, 8, 20, 8, 4, t.dataModel.longBytes]
      ∧ allStructs.map (nativeSize t) = [12, 8, 20, 8, 4, t.dataModel.longBytes]
      ∧ DataModel.longBytes .ILP32 = 4 ∧ DataModel.longBytes .LLP64 = 4 := by
  rcases t with ⟨dm, sg⟩
  cases dm <;> cases sg <;> decide

/-- C1 fails as stated: compiled for the LP64 target, the declared field widths
of `CamgChunk` sum to 8 bytes, so the six sums are 12, 8, 20, 8, 4, 8 and not
12, 8, 20, 8, 4, 4. -/
theorem declared_width_sums_lp64 :
    allStructs.map (packedSize appleLP64) = [12, 8, 20, 8, 4, 8]
      ∧ allStructs.map (packedSize appleLP64) ≠ [12, 8, 20, 8, 4, 4]
      ∧ nativeSize appleLP64 CamgChunk = 8 := by
  decide

/-- C3: `BMHD` declares exactly the 13 fields `w, h, x, y, nPlanes, masking,
compression, padl, transparentColor, xAspect, yAspect, pageW, pageH` in that
order, of widths 2,2,2,2,1,1,1,1,2,1,1,2,2, at byte offsets
0,2,4,6,8,9,10,11,12,14,15,16,18, for 20 bytes in all; `w`, `h` and
`transparentColor` are unsigned 16-bit, `x`, `y`, `pageW`, `pageH` signed
16-bit.  This holds on every target. -/
theorem bmhd_layout (t : Target) :
    BMHD.map (fun f => f.name)
        = ["w", "h", "x", "y", "nPlanes", "masking", "compression", "padl",
           "transparentColor", "xAspect", "yAspect", "pageW", "pageH"]
      ∧ BMHD.length = 13
      ∧ BMHD.map (fun f => f.type.size t) = [2, 2, 2, 2, 1, 1, 1, 1, 2, 1, 1, 2, 2]
      ∧ packedOffsets t BMHD = [0, 2, 4, 6, 8, 9, 10, 11, 12, 14, 15, 16, 18]
      ∧ nativeOffsets t BMHD = [0, 2, 4, 6, 8, 9, 10, 11, 12, 14, 15, 16, 18]
      ∧ packedSize t BMHD = 20
      ∧ nativeSize t BMHD = 20
      ∧ (∀ n ∈ ["w", "h", "transparentColor"], fieldType BMHD n = some .unsignedShort)
      ∧ (CType.isSigned t .unsignedShort = false ∧ CType.size t .unsignedShort = 2
          ∧ CType.minValue t .unsignedShort = 0 ∧ CType.maxValue t .unsignedShort = 65535)
      ∧ (∀ n ∈ ["x", "y", "pageW", "pageH"], fieldType BMHD n = some .short)
      ∧ (CType.isSigned t .short = true ∧ CType.size t .short = 2
          ∧ CType.minValue t .short = -32768 ∧ CType.maxValue t .short = 32767) := by
  rcases t with ⟨dm, sg⟩
  cases dm <;> cases sg <;> decide

/-- C5, as the header has it: each of the eight one-byte fields is declared
plain `char`, one byte wide, and takes the signedness of the target's plain
`char`: where it is unsigned the range is 0..255 and a stored byte `b` reads as
`b`; where it is signed the range is -128..127 and a stored byte `b` reads as
`b` below 128 and as `b - 256` from 128 on. -/
theorem single_byte_fields_plain_char (t : Target) :
    (∀ p ∈ singleByteFields, fieldType p.1 p.2 = some .char)
      ∧ CType.size t .char = 1
      ∧ CType.minValue t .char = (if t.charSigned then -128 else 0)
      ∧ CType.maxValue t .char = (if t.charSigned then 127 else 255)
      ∧ (∀ b : Byte, charValue t b
          = if t.charSigned = true ∧ 128 ≤ b.val then (b.val : Int) - 256 else (b.val : Int)) := by
  refine ⟨by decide, rfl, ?_, ?_, ?_⟩
  · rcases t with ⟨dm, sg⟩
    cases dm <;> cases sg <;> decide
  · rcases t with ⟨dm, sg⟩
    cases dm <;> cases sg <;> decide
  · intro b
    rcases t with ⟨dm, sg⟩
    cases sg
    · simp [charValue]
    · by_cases h : b.val < 128
      · have h2 : ¬ 128 ≤ b.val := by omega
        simp [charValue, h, h2]
      · have h2 : 128 ≤ b.val := by omega
        simp [charValue, h, h2]

/-- C5 fails as stated: compiled for the LP64 target with signed plain `char`,
`nPlanes` (declared `char`) has the range -128..127, so 255 and 200 are not
values of the field, and the stored bytes 255 and 200 read as -1 and -56. -/
theorem single_byte_fields_signed_on_apple :
    fieldType BMHD "nPlanes" = some .char
      ∧ CType.minValue appleLP64 .char = -128
      ∧ CType.maxValue appleLP64 .char = 127
      ∧ charValue appleLP64 255 = -1
      ∧ charValue appleLP64 200 = -56
      ∧ ¬ (∀ b : Byte, charValue appleLP64 b = (b.val : Int)) := by
  refine ⟨by decide, by decide, by decide, by decide, by decide, ?_⟩
  intro h
  exact absurd (h 255) (by decide)

/-- C6, as the header has it: `CamgChunk` consists of the single field
`viewModes`, declared `unsigned long`: unsigned on every target, as wide as the
target's `long`, with the range 0..2^(8*width)-1, and the record is exactly
that wide.  Under ILP32 and LLP64 that is 32 bits, the range 0..2^32-1 and 4
bytes. -/
theorem camg_viewModes_unsigned_long (t : Target) :
    CamgChunk = [⟨"viewModes", .unsignedLong⟩]
      ∧ CType.isSigned t .unsignedLong = false
      ∧ CType.size t .unsignedLong = t.dataModel.longBytes
      ∧ CType.minValue t .unsignedLong = 0
      ∧ CType.maxValue t .unsignedLong = 2 ^ (8 * t.dataModel.longBytes) - 1
      ∧ packedSize t CamgChunk = t.dataModel.longBytes
      ∧ nativeSize t CamgChunk = t.dataModel.longBytes
      ∧ nativeOffsets t CamgChunk = [0]
      ∧ (DataModel.longBytes .ILP32 = 4 ∧ DataModel.longBytes .LLP64 = 4)
      ∧ (CType.maxValue ilp32 .unsignedLong = 2 ^ 32 - 1 ∧ nativeSize ilp32 CamgChunk = 4)
      ∧ (CType.maxValue linuxArm32 .unsignedLong = 2 ^ 32 - 1
          ∧ nativeSize linuxArm32 CamgChunk = 4)
      ∧ (CType.maxValue win64 .unsignedLong = 2 ^ 32 - 1 ∧ nativeSize win64 CamgChunk = 4) := by
  rcases t with ⟨dm, sg⟩
  cases dm <;> cases sg <;> decide

/-- C6 fails as stated: compiled for the LP64 target, `viewModes` is a 64-bit
quantity with the range 0..2^64-1 (2^32 is a value of the field) and
`CamgChunk` occupies 8 bytes. -/
theorem camg_viewModes_lp64 :
    fieldType CamgChunk "viewModes" = some .unsignedLong
      ∧ CType.size appleLP64 .unsignedLong = 8
      ∧ CType.maxValue appleLP64 .unsignedLong = 2 ^ 64 - 1
      ∧ CType.maxValue appleLP64 .unsignedLong ≠ 2 ^ 32 - 1
      ∧ packedSize appleLP64 CamgChunk = 8
      ∧ nativeSize appleLP64 CamgChunk = 8 := by
  decide

/-- C7: `CRange` declares exactly `pad1, rate, flags, low, high` in that order;
`pad1`, `rate`, `flags` are signed 16-bit at offsets 0, 2, 4 and `low`, `high`
one byte each at offsets 6 and 7, 8 bytes in all.  `Point2D` declares exactly
`x` then `y`, both signed 16-bit, at offsets 0 and 2, 4 bytes in all.  This
holds on every target. -/
theorem crange_point2d_layout (t : Target) :
    (CRange.map (fun f => f.name) = ["pad1", "rate", "flags", "low", "high"]
      ∧ CRange.map (fun f => f.type) = [.short, .short, .short, .char, .char]
      ∧ CRange.map (fun f => f.type.size t) = [2, 2, 2, 1, 1]
      ∧ packedOffsets t CRange = [0, 2, 4, 6, 7]
      ∧ nativeOffsets t CRange = [0, 2, 4, 6, 7]
      ∧ packedSize t CRange = 8
      ∧ nativeSize t CRange = 8)
      ∧ (Point2D.map (fun f => f.name) = ["x", "y"]
        ∧ Point2D.map (fun f => f.type) = [.short, .short]
        ∧ Point2D.map (fun f => f.type.size t) = [2, 2]
        ∧ packedOffsets t Point2D = [0, 2]
        ∧ nativeOffsets t Point2D = [0, 2]
        ∧ packedSize t Point2D = 4
        ∧ nativeSize t Point2D = 4)
      ∧ (CType.isSigned t .short = true ∧ CType.size t .short = 2
          ∧ CType.minValue t .short = -32768 ∧ CType.maxValue t .short = 32767) := by
  rcases t with ⟨dm, sg⟩
  cases dm <;> cases sg <;> decide

/-- C9: for each of the six structs, on every target, natural alignment inserts
no padding: every field's offset is the sum of the widths of the fields before
it, and the struct's size is the sum of its field widths. -/
theorem native_layout_is_packed (t : Target) :
    ∀ s ∈ allStructs, nativeOffsets t s = packedOffsets t s ∧ nativeSize t s = packedSize t s := by
  rcases t with ⟨dm, sg⟩
  cases dm <;> cases sg <;> decide

/-- The statement of C9 at `BMHD` on the LP64 target: the natural-alignment
offsets are the packed ones and the size is 20, the sum of the widths. -/
theorem native_layout_is_packed_bmhd :
    BMHD ∈ allStructs
      ∧ nativeOffsets appleLP64 BMHD = packedOffsets appleLP64 BMHD
      ∧ nativeSize appleLP64 BMHD = packedSize appleLP64 BMHD
      ∧ nativeSize appleLP64 BMHD = 20 :=
  have hm : BMHD ∈ allStructs := by decide
  ⟨hm, (native_layout_is_packed appleLP64 BMHD hm).1,
    (native_layout_is_packed appleLP64 BMHD hm).2, by decide⟩

/-- C10: the first two fields of `IFFHeader` have the types, widths and offsets
(0 and 4) of the two fields of `ChunkDesc`; whatever bytes are stored, the first
8 of them laid out as a `ChunkDesc` give `chunkType` and `chunkSize` the very
storage (type and bytes) that `type` and `size` have in the `IFFHeader` laid out
over the same bytes; and `IFFHeader` is as wide as `ChunkDesc` plus the 4-byte
`subtype`. -/
theorem chunkDesc_leads_iffHeader (t : Target) (b : List Byte) :
    (IFFHeader.take 2).map (fun f => f.type) = ChunkDesc.map (fun f => f.type)
      ∧ (IFFHeader.take 2).map (fun f => f.type.size t) = [4, 4]
      ∧ ChunkDesc.map (fun f => f.type.size t) = [4, 4]
      ∧ (nativeOffsets t IFFHeader).take 2 = [0, 4]
      ∧ nativeOffsets t ChunkDesc = [0, 4]
      ∧ (memberBytes t IFFHeader b).take 2 = memberBytes t ChunkDesc (b.take 8)
      ∧ memberBytes t ChunkDesc (b.take 8)
          = [(.charArray 4, b.take 4), (.unsignedInt, (b.drop 4).take 4)]
      ∧ fieldType IFFHeader "subtype" = some (.charArray 4)
      ∧ nativeSize t IFFHeader = nativeSize t ChunkDesc + CType.size t (.charArray 4)
      ∧ nativeSize t IFFHeader = 12 ∧ nativeSize t ChunkDesc = 8 := by
  have hm : memberBytes t ChunkDesc (b.take 8)
      = [(.charArray 4, b.take 4), (.unsignedInt, (b.drop 4).take 4)] := by
    rcases t with ⟨dm, sg⟩
    cases dm <;> cases sg <;>
      simp [memberBytes, ChunkDesc, nativeOffsets, nativeOffsetsFrom, CType.align, CType.size,
        alignUp, List.take_take, List.drop_take]
  have hi : (memberBytes t IFFHeader b).take 2
      = [(.charArray 4, b.take 4), (.unsignedInt, (b.drop 4).take 4)] := by
    rcases t with ⟨dm, sg⟩
    cases dm <;> cases sg <;>
      simp [memberBytes, IFFHeader, nativeOffsets, nativeOffsetsFrom, CType.align, CType.size,
        alignUp]
  refine ⟨by decide, ?_, ?_, ?_, ?_, by rw [hi, hm], hm, by decide, ?_, ?_, ?_⟩ <;>
    (rcases t with ⟨dm, sg⟩; cases dm <;> cases sg <;> decide)

/-! ## The codec of the specification -/

namespace Wire

theorem byteOf_val (n : Nat) : (byteOf n).val = n % 256 := rfl

theorem byteOf_self (b : Byte) : byteOf b.val = b := by
  apply Fin.ext
  simp [byteOf_val, Nat.mod_eq_of_lt b.isLt]

/-- Where the record table and the header agree: the width the record table
gives a kind is the sum of the declared field widths of its struct, except for
`CamgChunk` on a target whose `long` is not 4 bytes. -/
theorem width_eq_declared_iff (t : Target) (k : RecordKind) :
    k.width = packedSize t k.decl ↔ (k ≠ .CamgChunk ∨ t.dataModel.longBytes = 4) := by
  rcases t with ⟨dm, sg⟩
  cases dm <;> cases sg <;> cases k <;> decide

/-- C4: for every 12-byte input `b`, decoding the container header gives
`type = b[0..4]`, `subtype = b[8..12]` and
`size = b[4]*2^24 + b[5]*2^16 + b[6]*2^8 + b[7]`, consumes all 12 bytes, and
encoding the result gives `b` back; the bytes
`46 4F 52 4D 00 00 00 2A 49 4C 42 4D` decode to "FORM", 42, "ILBM" and encode
back to themselves. -/
theorem iffHeader_big_endian (b : List Byte) (h : b.length = 12) :
    ContainerHeader.decode false b
        = .ok (⟨b.take 4,
                byteAt b 4 * 2 ^ 24 + byteAt b 5 * 2 ^ 16 + byteAt b 6 * 2 ^ 8 + byteAt b 7,
                (b.drop 8).take 4⟩, [])
      ∧ ContainerHeader.encode
          ⟨b.take 4,
           byteAt b 4 * 2 ^ 24 + byteAt b 5 * 2 ^ 16 + byteAt b 6 * 2 ^ 8 + byteAt b 7,
           (b.drop 8).take 4⟩ = b
      ∧ ContainerHeader.decode false formIlbmBytes
          = .ok (⟨tagOfString "FORM", 42, tagOfString "ILBM"⟩, [])
      ∧ ContainerHeader.encode ⟨tagOfString "FORM", 42, tagOfString "ILBM"⟩ = formIlbmBytes := by
  refine ⟨?_, ?_, by decide, by decide⟩
  · match b, h with
    | [b0, b1, b2, b3, b4, b5, b6, b7, b8, b9, b10, b11], _ =>
      simp [ContainerHeader.decode, be32, byteAt]
  · match b, h with
    | [b0, b1, b2, b3, b4, b5, b6, b7, b8, b9, b10, b11], _ =>
      have e4 : byteOf ((b4.val * 16777216 + b5.val * 65536 + b6.val * 256 + b7.val) / 16777216)
          = b4 := by
        apply Fin.ext
        have := b4.isLt
        have := b5.isLt
        have := b6.isLt
        have := b7.isLt
        simp only [byteOf_val]
        omega
      have e5 : byteOf ((b4.val * 16777216 + b5.val * 65536 + b6.val * 256 + b7.val) / 65536)
          = b5 := by
        apply Fin.ext
        have := b4.isLt
        have := b5.isLt
        have := b6.isLt
        have := b7.isLt
        simp only [byteOf_val]
        omega
      have e6 : byteOf ((b4.val * 16777216 + b5.val * 65536 + b6.val * 256 + b7.val) / 256)
          = b6 := by
        apply Fin.ext
        have := b4.isLt
        have := b5.isLt
        have := b6.isLt
        have := b7.isLt
        simp only [byteOf_val]
        omega
      have e7 : byteOf (b4.val * 16777216 + b5.val * 65536 + b6.val * 256 + b7.val) = b7 := by
        apply Fin.ext
        have := b4.isLt
        have := b5.isLt
        have := b6.isLt
        have := b7.isLt
        simp only [byteOf_val]
        omega
      simp [ContainerHeader.encode, encTag, encU32, byteAt, e4, e5, e6, e7]

/-- The statement of C4 at the scenario bytes `46 4F 52 4D 00 00 00 2A 49 4C 42 4D`. -/
theorem iffHeader_big_endian_form :
    formIlbmBytes.length = 12
      ∧ ContainerHeader.decode false formIlbmBytes
          = .ok (⟨[0x46, 0x4F, 0x52, 0x4D], 42, [0x49, 0x4C, 0x42, 0x4D]⟩, []) :=
  ⟨rfl, (iffHeader_big_endian formIlbmBytes rfl).1⟩

/-- C8: the record widths are 12, 8, 20, 8, 4, 4, and for every record kind,
with or without tag validation, decoding a buffer fails with `ShortInput`
exactly when the buffer is shorter than the width of the kind (and then yields
no record); without tag validation a buffer that is long enough decodes to a
record. -/
theorem short_input (k : RecordKind) (validateTags : Bool) (bs : List Byte) :
    [RecordKind.IFFHeader, .ChunkDesc, .BMHD, .CRange, .Point2D, .CamgChunk].map
        (fun k => k.width) = [12, 8, 20, 8, 4, 4]
      ∧ (decode k validateTags bs = .error .ShortInput ↔ bs.length < k.width)
      ∧ ((∃ r, decode k false bs = .ok r) ↔ k.width ≤ bs.length) := by
  refine ⟨by decide, ?_, ?_⟩
  · cases k
    · by_cases h : bs.length < 12 <;> cases validateTags <;>
        by_cases hv : tagValid (bs.take 4) && tagValid ((bs.drop 8).take 4) <;>
        simp [decode, ContainerHeader.decode, RecordKind.width, RecordKind.wireFields,
          WireType.width, Except.map, h, hv]
    · by_cases h : bs.length < 8 <;> cases validateTags <;>
        by_cases hv : tagValid (bs.take 4) <;>
        simp [decode, ChunkDescriptor.decode, RecordKind.width, RecordKind.wireFields,
          WireType.width, Except.map, h, hv]
    · by_cases h : bs.length < 20 <;>
        simp [decode, BitmapHeader.decode, RecordKind.width, RecordKind.wireFields,
          WireType.width, Except.map, h]
    · by_cases h : bs.length < 8 <;>
        simp [decode, ColorCycleRange.decode, RecordKind.width, RecordKind.wireFields,
          WireType.width, Except.map, h]
    · by_cases h : bs.length < 4 <;>
        simp [decode, Point.decode, RecordKind.width, RecordKind.wireFields,
          WireType.width, Except.map, h]
    · by_cases h : bs.length < 4 <;>
        simp [decode, DisplayMode.decode, RecordKind.width, RecordKind.wireFields,
          WireType.width, Except.map, h]
  · cases k
    · by_cases h : bs.length < 12
      · simp [decode, ContainerHeader.decode, RecordKind.width, RecordKind.wireFields,
          WireType.width, Except.map, h]
      · simp [decode, ContainerHeader.decode, RecordKind.width, RecordKind.wireFields,
          WireType.width, Except.map, h]
        omega
    · by_cases h : bs.length < 8
      · simp [decode, ChunkDescriptor.decode, RecordKind.width, RecordKind.wireFields,
          WireType.width, Except.map, h]
      · simp [decode, ChunkDescriptor.decode, RecordKind.width, RecordKind.wireFields,
          WireType.width, Except.map, h]
        omega
    · by_cases h : bs.length < 20
      · simp [decode, BitmapHeader.decode, RecordKind.width, RecordKind.wireFields,
          WireType.width, Except.map, h]
      · simp [decode, BitmapHeader.decode, RecordKind.width, RecordKind.wireFields,
          WireType.width, Except.map, h]
        omega
    · by_cases h : bs.length < 8
      · simp [decode, ColorCycleRange.decode, RecordKind.width, RecordKind.wireFields,
          WireType.width, Except.map, h]
      · simp [decode, ColorCycleRange.decode, RecordKind.width, RecordKind.wireFields,
          WireType.width, Except.map, h]
        omega
    · by_cases h : bs.length < 4
      · simp [decode, Point.decode, RecordKind.width, RecordKind.wireFields,
          WireType.width, Except.map, h]
      · simp [decode, Point.decode, RecordKind.width, RecordKind.wireFields,
          WireType.width, Except.map, h]
        omega
    · by_cases h : bs.length < 4
      · simp [decode, DisplayMode.decode, RecordKind.width, RecordKind.wireFields,
          WireType.width, Except.map, h]
      · simp [decode, DisplayMode.decode, RecordKind.width, RecordKind.wireFields,
          WireType.width, Except.map, h]
        omega

end Wire

end IffUtils
